import Mathlib

/-!
Verification of the ACT-expert hybrid retrieval pipeline
(`build_embeddings.py`, `build_index.py`, `build_tensors.py`, `query_rag.py`).

Python strings are modelled as `List Char` (`PyStr`); floating-point scores
are modelled as exact rationals `ℚ`.  External collaborators (the sentence
transformer, the FAISS index internals, the rank_bm25 scorer) are taken as
parameters or modelled from the specified Vector Index contract; all logic of
the repository's own functions is translated directly from the Python source.
-/

/-- Python strings, modelled as lists of characters. -/
abbrev PyStr := List Char

/-- Coerce a Lean string literal to the `PyStr` model. -/
def str (s : String) : PyStr := s.toList

/-- Characters stripped by Python `str.strip()` (ASCII whitespace). -/
def pyIsWs (c : Char) : Bool :=
  c = ' ' || c = '\t' || c = '\n' || c = '\r' || c = '\x0b' || c = '\x0c'

/-- Python `s.strip()`: remove leading and trailing whitespace. -/
def pyStrip (s : PyStr) : PyStr :=
  ((s.dropWhile pyIsWs).reverse.dropWhile pyIsWs).reverse

/-- Auxiliary loop for `pySplit`; `fuel` bounds the number of scanned
positions (one unit per consumed character suffices). -/
def splitGo (sep : PyStr) : Nat → PyStr → PyStr → List PyStr
  | _, acc, [] => [acc.reverse]
  | 0, acc, rest => [acc.reverse ++ rest]
  | fuel+1, acc, c :: rest =>
    if sep.isPrefixOf (c :: rest) then
      acc.reverse :: splitGo sep fuel [] ((c :: rest).drop sep.length)
    else
      splitGo sep fuel (c :: acc) rest

/-- Python `s.split(sep)` for a non-empty literal separator: split at each
non-overlapping occurrence, scanning left to right, keeping empty pieces.
Also models `re.split` on a metacharacter-free pattern. -/
def pySplit (s sep : PyStr) : List PyStr := splitGo sep s.length [] s

/-- Python `s.replace(old, new)` for non-empty `old`: replace every
non-overlapping occurrence, scanning left to right. -/
def replaceGo (old new : PyStr) : Nat → PyStr → PyStr
  | _, [] => []
  | 0, rest => rest
  | fuel+1, c :: rest =>
    if old.isPrefixOf (c :: rest) then
      new ++ replaceGo old new fuel ((c :: rest).drop old.length)
    else
      c :: replaceGo old new fuel rest

/-- Python `s.replace(old, new)`. -/
def pyReplace (s old new : PyStr) : PyStr := replaceGo old new s.length s

/-- Python `s.lower()` (ASCII). -/
def pyLower (s : PyStr) : PyStr :=
  s.map (fun c => if 'A' ≤ c && c ≤ 'Z' then Char.ofNat (c.toNat + 32) else c)

/-- Auxiliary loop for `pySplitWs`. -/
def splitWsGo : Nat → PyStr → List PyStr
  | _, [] => []
  | 0, rest => [rest]
  | fuel+1, c :: rest =>
    if pyIsWs c then splitWsGo fuel rest
    else
      let tok := (c :: rest).takeWhile (fun d => !pyIsWs d)
      tok :: splitWsGo fuel ((c :: rest).drop tok.length)

/-- Python `s.split()` with no argument: split on whitespace runs, dropping
empty tokens. -/
def pySplitWs (s : PyStr) : List PyStr := splitWsGo s.length s

/-- Python `s.startswith(p)`. -/
def pyStartsWith (s p : PyStr) : Bool := p.isPrefixOf s

/-- Python `needle in haystack` for strings: substring containment. -/
def pyIn (needle : PyStr) : PyStr → Bool
  | [] => needle.isEmpty
  | c :: rest => needle.isPrefixOf (c :: rest) || pyIn needle rest

/-- Python `<` on strings: lexicographic comparison by code point. -/
def pyLt : PyStr → PyStr → Bool
  | [], [] => false
  | [], _ :: _ => true
  | _ :: _, [] => false
  | a :: as, b :: bs => if a < b then true else if b < a then false else pyLt as bs

/-- Python `sep.join(parts)`. -/
def pyJoin (sep : PyStr) (parts : List PyStr) : PyStr :=
  List.intercalate sep parts

/- ## CorpusParser (`build_embeddings.py`, `parse_markdown_corpus`) -/

/-- One parsed corpus section (`CorpusDocument` in `build_embeddings.py`).
`doc_type` is `none` when the section has no `**Type:**` line (Python
initializes the local to `None`). -/
structure CorpusDocument where
  doc_id : PyStr
  title : PyStr
  tags : List PyStr
  doc_type : Option PyStr
  content : PyStr
  source_file : PyStr
deriving DecidableEq, Repr

/-- Mutable locals of the per-section loop in `parse_markdown_corpus`:
`doc_id`, `tags`, `doc_type`, `content_lines`, `in_content`. -/
structure ParseState where
  docId : Option PyStr
  tags : List PyStr
  docType : Option PyStr
  contentLines : List PyStr
  inContent : Bool
deriving DecidableEq, Repr

/-- Initial per-section parse state. -/
def initParseState : ParseState :=
  { docId := none, tags := [], docType := none, contentLines := [], inContent := false }

/-- Python truthiness of the `doc_id` local: `None` and the empty string are
falsy. -/
def pyTruthy : Option PyStr → Bool
  | none => false
  | some s => !s.isEmpty

/-- The body of `for line in lines[1:]` in `parse_markdown_corpus`: the four
recognized markers each strip their prefix via `replace` and `strip`; any
other line is accumulated as content once `doc_id` is truthy. -/
def processLine (st : ParseState) (line : PyStr) : ParseState :=
  if pyStartsWith line (str "**ID:**") then
    { st with docId := some (pyStrip (pyReplace line (str "**ID:**") [])) }
  else if pyStartsWith line (str "**Tags:**") then
    { st with tags :=
        (pySplit (pyStrip (pyReplace line (str "**Tags:**") [])) (str ",")).map pyStrip }
  else if pyStartsWith line (str "**Type:**") then
    { st with docType := some (pyStrip (pyReplace line (str "**Type:**") [])) }
  else if pyStartsWith line (str "**Related:**") then
    st
  else
    let inC := st.inContent || pyTruthy st.docId
    if inC then { st with inContent := true, contentLines := st.contentLines ++ [line] }
    else st

/-- Parse one `## `-section: first line is the title, remaining lines feed
`processLine`; a section whose `doc_id` never becomes truthy is skipped. -/
def parseSection (sourceFile : PyStr) (sectionText : PyStr) : Option CorpusDocument :=
  let lines := pySplit sectionText (str "\n")
  let title := pyStrip (lines.headD [])
  let st := (lines.drop 1).foldl processLine initParseState
  if pyTruthy st.docId then
    some { doc_id := st.docId.getD [],
           title := title,
           tags := st.tags,
           doc_type := st.docType,
           content := pyStrip (pyJoin (str "\n") st.contentLines),
           source_file := sourceFile }
  else none

/-- Parse one markdown file: split on `"\n## "`, discard the preamble
segment, parse each remaining section. -/
def parseFile (name content : PyStr) : List CorpusDocument :=
  ((pySplit content (str "\n## ")).drop 1).filterMap (parseSection name)

/-- `parse_markdown_corpus`: concatenate the documents of every corpus file,
in glob order (taken as given). No duplicate-id detection is performed. -/
def parseCorpus (files : List (PyStr × PyStr)) : List CorpusDocument :=
  files.flatMap (fun f => parseFile f.1 f.2)

/- ## KnowledgeGraphBuilder (`build_tensors.py`) -/

/-- The `NODE_TYPES` table of `build_tensors.py`. -/
def NODE_TYPES : List (PyStr × Nat) :=
  [(str "definition", 0), (str "law", 1), (str "pattern", 2), (str "violation", 3),
   (str "fix", 4), (str "example", 5), (str "test_template", 6)]

/-- The `EDGE_TYPES` table of `build_tensors.py`. -/
def EDGE_TYPES : List (PyStr × Nat) :=
  [(str "defines", 0), (str "requires", 1), (str "verifies", 2), (str "violates", 3),
   (str "fixes", 4), (str "implements", 5), (str "relates_to", 6), (str "uses", 7)]

/-- A typed directed edge `(src, dst, edge_type)` as appended to
`KnowledgeGraphBuilder.edges`. -/
structure Edge where
  src : PyStr
  dst : PyStr
  ty : PyStr
deriving DecidableEq, Repr

/-- Characters matched by the regex class `[\w-]` (ASCII `\w` plus hyphen). -/
def isWordDash (c : Char) : Bool := c.isAlphanum || c = '_' || c = '-'

/-- Backtracking step of `re.search(r"\*\*Related:\*\*\s*([^\n]+)", ...)`
after the literal has matched: `\s*` consumes greedily, then backtracks until
`([^\n]+)` can match at least one character. Returns the captured group. -/
def reBacktrack (rest : PyStr) : Option PyStr :=
  let n := (rest.takeWhile pyIsWs).length
  ((List.range (n+1)).reverse).findSome? (fun i =>
    match rest.drop i with
    | [] => none
    | c :: cs => if c = '\n' then none else some ((c :: cs).takeWhile (fun d => d ≠ '\n')))

/-- `re.search(r"\*\*Related:\*\*\s*([^\n]+)", content)`: scan left to right
for the literal marker, attempt the tail match at each occurrence, return the
first captured group. -/
def searchRelated : PyStr → Option PyStr
  | [] => none
  | c :: rest =>
    if (str "**Related:**").isPrefixOf (c :: rest) then
      match reBacktrack ((c :: rest).drop (str "**Related:**").length) with
      | some g => some g
      | none => searchRelated rest
    else searchRelated rest

/-- Auxiliary loop for `findall`: Python `re.findall` of a pattern
`lit[\w-]+` — leftmost, non-overlapping, greedy. `fuel` bounds scanned
positions. -/
def findallGo (lit : PyStr) : Nat → PyStr → List PyStr
  | _, [] => []
  | 0, _ => []
  | fuel+1, c :: rest =>
    if lit.isPrefixOf (c :: rest) then
      let after := (c :: rest).drop lit.length
      let run := after.takeWhile isWordDash
      if run.isEmpty then findallGo lit fuel rest
      else (lit ++ run) :: findallGo lit fuel (after.drop run.length)
    else findallGo lit fuel rest

/-- `re.findall(r"<lit>[\w-]+", s)` for a literal prefix such as `"fix-"`. -/
def findall (lit : PyStr) (s : PyStr) : List PyStr := findallGo lit s.length s

/-- `KnowledgeGraphBuilder._extract_relationships`: the `relates_to` edges
from a `**Related:**` annotation found in `content`, followed by the
role-specific edges selected by substring tests on the node id, in the
source's `if`/`elif` order (`violation-`, then `pattern-`, then `test-`). -/
def extractRelationships (node_id content : PyStr) : List Edge :=
  let relatedEdges :=
    match searchRelated content with
    | some g => ((pySplit g (str ",")).map pyStrip).map
        (fun r => { src := node_id, dst := r, ty := str "relates_to" : Edge })
    | none => []
  let roleEdges :=
    if pyIn (str "violation-") node_id then
      (findall (str "fix-") content).map
        (fun f => { src := node_id, dst := f, ty := str "fixes" : Edge })
      ++ (findall (str "law-") content).map
        (fun l => { src := node_id, dst := l, ty := str "violates" : Edge })
    else if pyIn (str "pattern-") node_id then
      (findall (str "def-") content).map
        (fun d => { src := d, dst := node_id, ty := str "defines" : Edge })
      ++ (findall (str "example-") content).map
        (fun e => { src := node_id, dst := e, ty := str "implements" : Edge })
    else if pyIn (str "test-") node_id then
      (findall (str "pattern-") content).map
        (fun p => { src := node_id, dst := p, ty := str "verifies" : Edge })
    else []
  relatedEdges ++ roleEdges

/-- Python `dict` assignment `d[k] = v`: update the value in place if the key
exists (insertion order preserved), else append the binding. -/
def dictInsert {β : Type} (k : PyStr) (v : β) (d : List (PyStr × β)) : List (PyStr × β) :=
  if d.any (fun p => p.1 = k) then
    d.map (fun p => if p.1 = k then (k, v) else p)
  else d ++ [(k, v)]

/-- Build a Python dict from a sequence of key-value pairs (comprehension
semantics: later bindings overwrite earlier ones). -/
def dictOfPairs {β : Type} (l : List (PyStr × β)) : List (PyStr × β) :=
  l.foldl (fun d p => dictInsert p.1 p.2 d) []

/-- Python `d.get(k, default)` over the dict model. -/
def dictGet {β : Type} (d : List (PyStr × β)) (k : PyStr) (default : β) : β :=
  match d.find? (fun p => p.1 = k) with
  | some p => p.2
  | none => default

/-- One node of `KnowledgeGraphBuilder.nodes` (the dict value). The embedding
is the weak vector reference (`embedding_lookup.get(doc_id)`). -/
structure KGNode where
  id : PyStr
  ty : Option PyStr
  tags : List PyStr
  embedding : Option (List ℚ)
deriving DecidableEq

/-- `KnowledgeGraphBuilder.parse_corpus` over an already-loaded metadata list
and embedding matrix: build the node dict (later duplicate ids overwrite) and
append each document's extracted edges in metadata order. -/
def kgParseCorpus (metadata : List CorpusDocument) (embeddings : List (List ℚ)) :
    List (PyStr × KGNode) × List Edge :=
  let lookup := dictOfPairs (metadata.enum.map (fun p => (p.2.doc_id, embeddings.get? p.1)))
  metadata.foldl
    (fun acc doc =>
      (dictInsert doc.doc_id
        { id := doc.doc_id, ty := doc.doc_type, tags := doc.tags,
          embedding := dictGet lookup doc.doc_id none } acc.1,
       acc.2 ++ extractRelationships doc.doc_id doc.content))
    ([], [])

/-- Stable insertion step: walk past every element `y` with `lt x y` (x must
come strictly later), insert `x` before the first other element. -/
def insertStable {α : Type} (lt : α → α → Bool) (x : α) : List α → List α
  | [] => [x]
  | y :: ys => if lt x y then y :: insertStable lt x ys else x :: y :: ys

/-- Stable sort (insertion sort): models Python's stable `sorted`. `lt x y`
means `x` must be placed strictly after `y`. -/
def stableSort {α : Type} (lt : α → α → Bool) (l : List α) : List α :=
  l.foldr (insertStable lt) []

/-- Python `sorted` on strings: ascending code-point order, stable. -/
def pySortedStr (l : List PyStr) : List PyStr :=
  stableSort (fun a b => pyLt b a) l

/-- The parts of the PyTorch Geometric `Data` object built by `build_graph`
that the specification talks about: sorted node ids, per-node type codes,
edge index pairs and edge type codes (only edges whose two endpoints resolve
in `node_to_idx` are kept). -/
structure BuiltGraph where
  nodeIds : List PyStr
  nodeTypeCodes : List (Option Nat)
  edgeList : List (Nat × Nat)
  edgeTypes : List Nat
deriving DecidableEq

/-- `EDGE_TYPES[t]` (total model; `_extract_relationships` only emits keys of
the table, so the default is never reached on reachable inputs). -/
def edgeTypeCode (t : PyStr) : Nat :=
  dictGet EDGE_TYPES t 0

/-- `NODE_TYPES[t]` (`none` models the `KeyError` on an unknown type). -/
def nodeTypeCode : Option PyStr → Option Nat
  | none => none
  | some t => (NODE_TYPES.find? (fun p => p.1 = t)).map (fun p => p.2)

/-- An edge is resolvable when both endpoints are keys of the node dict. -/
def edgeResolvable (nodes : List (PyStr × KGNode)) (e : Edge) : Bool :=
  nodes.any (fun p => p.1 = e.src) && nodes.any (fun p => p.1 = e.dst)

/-- `KnowledgeGraphBuilder.build_graph`: sort node ids, index them, keep only
edges with both endpoints in `node_to_idx`. -/
def buildGraph (nodes : List (PyStr × KGNode)) (edges : List Edge) : BuiltGraph :=
  let nodeIds := pySortedStr (nodes.map (fun p => p.1))
  let idxOf := fun i => (nodeIds.indexOf i)
  let kept := edges.filter (edgeResolvable nodes)
  { nodeIds := nodeIds,
    nodeTypeCodes := nodeIds.map (fun i =>
      nodeTypeCode ((nodes.find? (fun p => p.1 = i)).bind (fun p => p.2.ty))),
    edgeList := kept.map (fun e => (idxOf e.src, idxOf e.dst)),
    edgeTypes := kept.map (fun e => edgeTypeCode e.ty) }

/-- The statistics record written by `save_graph_tensor` (`graph_stats.json`):
all counts are computed from the already-filtered graph tensors. Together
with the graph itself this is the entire persisted output. -/
structure GraphStats where
  numNodes : Nat
  numEdges : Nat
  edgesByType : List (PyStr × Nat)
deriving DecidableEq

/-- `save_graph_tensor`'s statistics of a built graph. -/
def savedGraphStats (g : BuiltGraph) : GraphStats :=
  { numNodes := g.nodeIds.length,
    numEdges := g.edgeTypes.length,
    edgesByType := EDGE_TYPES.map (fun p => (p.1, (g.edgeTypes.filter (fun c => c = p.2)).length)) }

/- ## Index builder (`build_index.py`) -/

/-- The IVF cluster count of `build_faiss_index`:
`nlist = min(100, dimension // 10)` where `dimension = embeddings.shape[0]`
is the number of vectors (`//` is floor division; there is no minimum-1
clamp in the source). -/
def nlistIVF (vector_count : Nat) : Nat := min 100 (vector_count / 10)

/-- The tokenized corpus of `build_bm25_index`: one row per metadata entry,
`f"{title} {' '.join(tags)} {content}".lower().split()`. -/
def bm25Corpus (metadata : List CorpusDocument) : List (List PyStr) :=
  metadata.map (fun doc =>
    pySplitWs (pyLower (doc.title ++ str " " ++ pyJoin (str " ") doc.tags
      ++ str " " ++ doc.content)))

/- ## Query interface (`query_rag.py`, `ACTKnowledgeBase`) -/

/-- The loaded knowledge base. `metadata` and `vectors` are the parallel
arrays of `metadata.json` and `embeddings.npz` (FAISS stores the vectors in
insertion order); `encode` is the external sentence-transformer
(`model.encode`); `bm25` is the external `BM25Okapi.get_scores`, giving the
score of the document at a given index for a token list. -/
structure KB where
  metadata : List CorpusDocument
  vectors : List (List ℚ)
  encode : PyStr → List ℚ
  bm25 : List PyStr → Nat → ℚ

/-- Squared Euclidean distance (the FAISS `IndexFlatL2` metric). -/
def sqDist (u v : List ℚ) : ℚ :=
  ((List.zipWith (fun a b => (a - b) * (a - b)) u v).foldr (· + ·) 0)

/-- Modelled from the spec: the Vector Index contract consumed through
`faiss_index.search` (the FAISS internals are an external collaborator).
Exact (`Flat`) variant: brute-force squared-L2 distances against every
stored vector, results ascending by distance (ties in insertion order),
length `≤ k`. -/
def faissSearch (vecs : List (List ℚ)) (q : List ℚ) (k : Nat) : List (Nat × ℚ) :=
  (stableSort (fun a b => decide (b.2 < a.2))
    (vecs.enum.map (fun p => (p.1, sqDist q p.2)))).take k

/-- `ACTKnowledgeBase.query_semantic`: encode the query, search the index,
return each hit's metadata entry paired with its raw distance as `score`. -/
def querySemantic (kb : KB) (q : PyStr) (top_k : Nat) : List (CorpusDocument × ℚ) :=
  (faissSearch kb.vectors (kb.encode q) top_k).filterMap
    (fun p => (kb.metadata.get? p.1).map (fun doc => (doc, p.2)))

/-- Python `l[-k:]` on a list (note `l[-0:]` is the whole list). -/
def pySliceLast {α : Type} (k : Nat) (l : List α) : List α :=
  if k = 0 then l else l.drop (l.length - k)

/-- `np.argsort` (ascending): indices sorted by score. The model is stable;
numpy's default quicksort leaves tie order unspecified, and no claim below
depends on it. -/
def argsortAsc (scores : List ℚ) : List Nat :=
  stableSort (fun a b => decide (scores.getD b 0 < scores.getD a 0))
    (List.range scores.length)

/-- `ACTKnowledgeBase.query_keyword`: tokenize, score all documents with
BM25, take `np.argsort(scores)[-top_k:][::-1]`. -/
def queryKeyword (kb : KB) (q : PyStr) (top_k : Nat) : List (CorpusDocument × ℚ) :=
  let tokens := pySplitWs (pyLower q)
  let scores := (List.range kb.metadata.length).map (kb.bm25 tokens)
  ((pySliceLast top_k (argsortAsc scores)).reverse).filterMap
    (fun i => (kb.metadata.get? i).map (fun doc => (doc, scores.getD i 0)))

/-- The inner `normalize` of `query_hybrid`: min-max normalize a score dict
to `[0,1]`; when `max == min`, every value becomes `0.5`. `none` models the
`ValueError` Python's `min`/`max` raise on an empty dict. -/
def normalizeScores (scores : List (PyStr × ℚ)) : Option (List (PyStr × ℚ)) :=
  let values := scores.map (fun p => p.2)
  match values.min?, values.max? with
  | some mn, some mx =>
    if mx = mn then some (scores.map (fun p => (p.1, (1 : ℚ)/2)))
    else some (scores.map (fun p => (p.1, (p.2 - mn) / (mx - mn))))
  | _, _ => none

/-- The dict `{doc["id"]: doc["score"]}` over the full semantic search
(`top_k = len(self.metadata)`). -/
def semanticScoresDict (kb : KB) (q : PyStr) : List (PyStr × ℚ) :=
  dictOfPairs ((querySemantic kb q kb.metadata.length).map (fun p => (p.1.doc_id, p.2)))

/-- The dict `{doc["id"]: doc["score"]}` over the full keyword search. -/
def keywordScoresDict (kb : KB) (q : PyStr) : List (PyStr × ℚ) :=
  dictOfPairs ((queryKeyword kb q kb.metadata.length).map (fun p => (p.1.doc_id, p.2)))

/-- The elements of the Python set
`set(semantic_norm.keys()) | set(keyword_norm.keys())`, with multiplicity
and order as seen when building it (its iteration order is a separate
parameter, below). -/
def unionIds (kb : KB) (q : PyStr) : List PyStr :=
  (semanticScoresDict kb q).map (fun p => p.1)
    ++ (keywordScoresDict kb q).map (fun p => p.1)

/-- A possible iteration order of the Python set `all_doc_ids`: any
duplicate-free enumeration of its elements (CPython's set order for strings
is hash-dependent and not otherwise specified). -/
def ValidOrder (kb : KB) (q : PyStr) (order : List PyStr) : Prop :=
  order.Nodup ∧ (∀ s ∈ order, s ∈ unionIds kb q) ∧ (∀ s ∈ unionIds kb q, s ∈ order)

instance (kb : KB) (q : PyStr) (order : List PyStr) : Decidable (ValidOrder kb q order) := by
  unfold ValidOrder; infer_instance

/-- The `combined_scores` dict of `query_hybrid`, built by iterating the set
`all_doc_ids` in the given order; `none` propagates the empty-dict error of
`normalize`. Ids missing from one ranking source get `0.0` for it. -/
def combinedScores (kb : KB) (q : PyStr) (alpha : ℚ) (order : List PyStr) :
    Option (List (PyStr × ℚ)) :=
  match normalizeScores (semanticScoresDict kb q), normalizeScores (keywordScoresDict kb q) with
  | some semNorm, some kwNorm =>
    some (order.map (fun i =>
      (i, alpha * dictGet semNorm i 0 + (1 - alpha) * dictGet kwNorm i 0)))
  | _, _ => none

/-- The sorted id list
`sorted(combined_scores.keys(), key=..., reverse=True)` of `query_hybrid`
(before truncation): descending by combined score, stable in the set's
iteration order. -/
def hybridRankedIds (kb : KB) (q : PyStr) (alpha : ℚ) (order : List PyStr) :
    Option (List PyStr) :=
  (combinedScores kb q alpha order).map (fun cd =>
    stableSort (fun a b => decide (dictGet cd a 0 < dictGet cd b 0)) order)

/-- `ACTKnowledgeBase.query_hybrid`: normalize both score dicts, combine with
weight `alpha`, rank descending (stable), truncate to `top_k`, and look each
id back up in `metadata` (first match). -/
def queryHybrid (kb : KB) (q : PyStr) (top_k : Nat) (alpha : ℚ) (order : List PyStr) :
    Option (List (CorpusDocument × ℚ)) :=
  match combinedScores kb q alpha order, hybridRankedIds kb q alpha order with
  | some cd, some ranked =>
    some ((ranked.take top_k).filterMap (fun i =>
      (kb.metadata.find? (fun d => d.doc_id = i)).map (fun d => (d, dictGet cd i 0))))
  | _, _ => none

/- ## Concrete instances used as failing inputs and witnesses -/

/-- Two-document knowledge base whose vectors put `doc-a` at distance 0 and
`doc-b` at distance 4 from every encoded query; BM25 scores everything 0. -/
def kbTwo : KB :=
  { metadata :=
      [{ doc_id := str "doc-a", title := str "A", tags := [],
         doc_type := some (str "definition"), content := [], source_file := str "f.md" },
       { doc_id := str "doc-b", title := str "B", tags := [],
         doc_type := some (str "definition"), content := [], source_file := str "f.md" }],
    vectors := [[0], [2]],
    encode := fun _ => [0],
    bm25 := fun _ _ => 0 }

/-- Two-document knowledge base in which both documents are at distance 0
and BM25 scores both 1, so every combined score ties. -/
def kbTie : KB :=
  { metadata :=
      [{ doc_id := str "alpha", title := str "A", tags := [],
         doc_type := some (str "definition"), content := [], source_file := str "f.md" },
       { doc_id := str "beta", title := str "B", tags := [],
         doc_type := some (str "definition"), content := [], source_file := str "f.md" }],
    vectors := [[0], [0]],
    encode := fun _ => [0],
    bm25 := fun _ _ => 1 }

/-- Single-document knowledge base. -/
def kbOne : KB :=
  { metadata :=
      [{ doc_id := str "doc-a", title := str "A", tags := [],
         doc_type := some (str "definition"), content := [], source_file := str "f.md" }],
    vectors := [[0]],
    encode := fun _ => [0],
    bm25 := fun _ _ => 0 }

/-- Corpus with the same `doc_id` in two source files, with different
`Type` lines so the two occurrences are distinguishable. -/
def corpusDup : List (PyStr × PyStr) :=
  [(str "a.md", str "# A\n\n## One\n\n**ID:** dup-001\n**Type:** definition\n\nFirst body."),
   (str "b.md", str "# B\n\n## Two\n\n**ID:** dup-001\n**Type:** law\n\nSecond body.")]

/-- Corpus whose single section carries an explicit `**Related:**`
annotation line listing two ids. -/
def corpusRel : List (PyStr × PyStr) :=
  [(str "c.md",
    str "# C\n\n## Gamma\n\n**ID:** note-gamma-001\n**Type:** definition\n\nSome prose.\n\n**Related:** def-beta-002, def-delta-003\n")]

/-- Corpus whose single section carries two `**ID:**` lines. -/
def corpusTwoIds : PyStr :=
  str "# H\n\n## T\n\n**ID:** id-a\n**ID:** id-b\n\nbody"

/-- Metadata whose single document emits one edge to an id that resolves to
no node. -/
def metadataDangling : List CorpusDocument :=
  [{ doc_id := str "violation-bad-001", title := str "V", tags := [],
     doc_type := some (str "violation"), content := str "see fix-absent-001",
     source_file := str "v.md" }]

/- ## Helper lemmas -/

/-- Inserting with `insertStable` yields a permutation of consing. -/
theorem insertStable_perm {α : Type} (lt : α → α → Bool) (x : α) :
    ∀ l : List α, (insertStable lt x l).Perm (x :: l) := by
  intro l
  induction l with
  | nil => exact List.Perm.refl _
  | cons y ys ih =>
    by_cases h : lt x y
    · simp only [insertStable, h, if_true]
      exact (ih.cons y).trans (List.Perm.swap x y ys)
    · simp only [insertStable, h, if_false]
      exact List.Perm.refl _

/-- `stableSort` permutes its input. -/
theorem stableSort_perm {α : Type} (lt : α → α → Bool) :
    ∀ l : List α, (stableSort lt l).Perm l := by
  intro l
  induction l with
  | nil => exact List.Perm.refl _
  | cons x xs ih => exact (insertStable_perm lt x (stableSort lt xs)).trans (ih.cons x)

/-- Filtering the elements of one key value commutes with `insertStable`
under the strict key comparison: the inserted element lands in front of the
equal-key block. -/
theorem filter_insertStable_key {α : Type} (key : α → ℚ) (c : ℚ) (x : α) :
    ∀ s : List α,
      (insertStable (fun a b => decide (key a < key b)) x s).filter
          (fun z => decide (key z = c))
      = if key x = c then
          x :: s.filter (fun z => decide (key z = c))
        else s.filter (fun z => decide (key z = c)) := by
  intro s
  induction s with
  | nil => by_cases h : key x = c <;> simp [insertStable, h]
  | cons y ys ih =>
    by_cases hlt : key x < key y
    · rw [insertStable, if_pos (decide_eq_true hlt), List.filter_cons, ih]
      by_cases hyc : key y = c
      · have hxc : ¬ key x = c := by
          intro h
          rw [h, hyc] at hlt
          exact lt_irrefl c hlt
        rw [if_neg hxc, if_neg hxc, List.filter_cons]
      · by_cases hxc2 : key x = c
        · rw [if_pos hxc2, if_pos hxc2, List.filter_cons]
          simp [hyc]
        · rw [if_neg hxc2, if_neg hxc2, List.filter_cons]
    · rw [insertStable, if_neg (by simp [hlt]), List.filter_cons, List.filter_cons]
      by_cases hxc2 : key x = c <;> by_cases hyc : key y = c <;>
        simp [hxc2, hyc, List.filter_cons]

/-- Stability of `stableSort` under a strict key comparison: the equal-key
elements appear in their original relative order. -/
theorem stableSort_filter_key {α : Type} (key : α → ℚ) (c : ℚ) :
    ∀ l : List α,
      (stableSort (fun a b => decide (key a < key b)) l).filter
          (fun z => decide (key z = c))
      = l.filter (fun z => decide (key z = c)) := by
  intro l
  induction l with
  | nil => rfl
  | cons x xs ih =>
    show (insertStable _ x (stableSort _ xs)).filter _ = _
    rw [filter_insertStable_key]
    by_cases h : key x = c <;> simp [h, ih, List.filter_cons]

/-- A list filtered by a predicate and by its negation partitions it. -/
theorem length_filter_add_length_filter_not {α : Type} (p : α → Bool) :
    ∀ l : List α, (l.filter p).length + (l.filter (fun x => !p x)).length = l.length := by
  intro l
  induction l with
  | nil => rfl
  | cons x xs ih =>
    by_cases h : p x <;> simp [List.filter_cons, h] <;> omega

/-- `filterMap` with a function that succeeds on every element preserves
length. -/
theorem length_filterMap_of_isSome {α β : Type} (f : α → Option β) :
    ∀ l : List α, (∀ x ∈ l, (f x).isSome) → (l.filterMap f).length = l.length := by
  intro l
  induction l with
  | nil => intro _; rfl
  | cons x xs ih =>
    intro h
    rw [List.filterMap_cons]
    cases hfx : f x with
    | none => exact absurd (h x (List.mem_cons_self x xs)) (by simp [hfx])
    | some b =>
      simp only [List.length_cons]
      rw [ih (fun y hy => h y (List.mem_cons_of_mem x hy))]

/-- An in-bounds index makes `List.get?` succeed. -/
theorem get?_isSome_of_lt {α : Type} :
    ∀ (l : List α) (n : Nat), n < l.length → (l.get? n).isSome := by
  intro l
  induction l with
  | nil => intro n h; exact absurd h (by simp)
  | cons x xs ih =>
    intro n h
    cases n with
    | zero => rfl
    | succ m => exact ih m (by simpa using h)

/-- A duplicate-free list over a two-element universe containing both
elements is one of the two enumerations. -/
theorem twoElemEnum {α : Type} {a b : α} :
    ∀ l : List α, a ≠ b → l.Nodup → (∀ x ∈ l, x = a ∨ x = b) → a ∈ l → b ∈ l →
      l = [a, b] ∨ l = [b, a] := by
  intro l hab hnd hsub ha hb
  match l with
  | [] => exact absurd ha (List.not_mem_nil a)
  | [x] =>
    have ha1 : a = x := List.mem_singleton.mp ha
    have hb1 : b = x := List.mem_singleton.mp hb
    exact absurd (ha1.trans hb1.symm) hab
  | [x, y] =>
    have hxy : x ≠ y := by
      have := List.pairwise_cons.mp hnd
      exact this.1 y (List.mem_singleton.mpr rfl)
    rcases hsub x (by simp) with hx | hx <;> rcases hsub y (by simp) with hy | hy
    · exact absurd (hx.trans hy.symm) hxy
    · left; rw [hx, hy]
    · right; rw [hx, hy]
    · exact absurd (hx.trans hy.symm) hxy
  | x :: y :: z :: t =>
    have h1 : x ≠ y := by
      have := List.pairwise_cons.mp hnd
      exact this.1 y (by simp)
    have h2 : x ≠ z := by
      have := List.pairwise_cons.mp hnd
      exact this.1 z (by simp)
    have h3 : y ≠ z := by
      have := List.pairwise_cons.mp (List.pairwise_cons.mp hnd).2
      exact this.1 z (by simp)
    rcases hsub x (by simp) with hx | hx <;> rcases hsub y (by simp) with hy | hy <;>
      rcases hsub z (by simp) with hz | hz
    all_goals first
      | exact absurd (hx.trans hy.symm) h1
      | exact absurd (hx.trans hz.symm) h2
      | exact absurd (hy.trans hz.symm) h3

/-- Antisymmetry of `≤` on `ℚ` in the form `List.min?_eq_some_iff`
expects. -/
instance : Std.Antisymm (fun a b : ℚ => a ≤ b) :=
  ⟨fun h1 h2 => le_antisymm h1 h2⟩

/-- The exact vector search over `k ≥ N` returns all `N` stored vectors:
its length is `N` and the returned indices are a permutation of
`range N`. -/
theorem faissSearch_map_fst_perm (vecs : List (List ℚ)) (q : List ℚ) (k : Nat)
    (hk : vecs.length ≤ k) :
    (faissSearch vecs q k).length = vecs.length ∧
    ((faissSearch vecs q k).map Prod.fst).Perm (List.range vecs.length) := by
  have hperm := stableSort_perm (fun a b : Nat × ℚ => decide (b.2 < a.2))
      (vecs.enum.map (fun p => (p.1, sqDist q p.2)))
  have hlen : (stableSort (fun a b : Nat × ℚ => decide (b.2 < a.2))
      (vecs.enum.map (fun p => (p.1, sqDist q p.2)))).length = vecs.length := by
    rw [hperm.length_eq, List.length_map, List.enum_length]
  have htake : faissSearch vecs q k
      = stableSort (fun a b : Nat × ℚ => decide (b.2 < a.2))
          (vecs.enum.map (fun p => (p.1, sqDist q p.2))) := by
    unfold faissSearch
    exact List.take_of_length_le (by rw [hlen]; exact hk)
  have hfst : ((vecs.enum.map (fun p => (p.1, sqDist q p.2))).map Prod.fst)
      = List.range vecs.length := by
    rw [List.map_map]
    have hcomp : (Prod.fst ∘ fun p : Nat × List ℚ => (p.1, sqDist q p.2))
        = Prod.fst := rfl
    rw [hcomp, List.enum_map_fst]
  constructor
  · rw [htake, hlen]
  · rw [htake]
    exact hfst ▸ (hperm.map Prod.fst)

/- ## Claim theorems -/

/-- Claim C5: for every knowledge base whose vector index holds `N` vectors
aligned with the metadata, and every requested count `k > N`,
`query_semantic` returns exactly `N` results, each corresponding to a
distinct indexed document (the searched indices are duplicate-free), and
does not fail. -/
theorem claim_C5 (kb : KB) (q : PyStr) (k : Nat)
    (hvm : kb.vectors.length = kb.metadata.length)
    (hk : kb.metadata.length < k) :
    (querySemantic kb q k).length = kb.metadata.length ∧
    ((faissSearch kb.vectors (kb.encode q) k).map Prod.fst).Nodup := by
  obtain ⟨hlen, hperm⟩ := faissSearch_map_fst_perm kb.vectors (kb.encode q) k
    (by omega)
  refine ⟨?_, hperm.symm.nodup (List.nodup_range _)⟩
  unfold querySemantic
  rw [length_filterMap_of_isSome]
  · rw [hlen, hvm]
  · intro p hp
    have hmem : p.1 ∈ (faissSearch kb.vectors (kb.encode q) k).map Prod.fst :=
      List.mem_map_of_mem Prod.fst hp
    have hrange : p.1 ∈ List.range kb.vectors.length := hperm.mem_iff.mp hmem
    have hlt : p.1 < kb.metadata.length := by
      rw [← hvm]
      exact List.mem_range.mp hrange
    have hsome : kb.metadata.get? p.1 = some (kb.metadata.get ⟨p.1, hlt⟩) :=
      List.get?_eq_get hlt
    rw [List.get?_eq_getElem?] at hsome
    simp [hsome]

/-- Claim C5 witness: a single-vector index queried with `k = 2` yields
exactly one result. -/
theorem claim_C5_witness :
    (querySemantic kbOne (str "q") 2).length = kbOne.metadata.length ∧
    ((faissSearch kbOne.vectors (kbOne.encode (str "q")) 2).map Prod.fst).Nodup :=
  claim_C5 kbOne (str "q") 2 (by rfl) (by decide)

/-- Claim C7: for every non-empty score dict, `normalize` succeeds and every
output value lies in `[0,1]`; when all input scores are equal (including the
single-document case), every output value is exactly `1/2` — never `0`,
undefined, or a division failure. -/
theorem claim_C7 (scores : List (PyStr × ℚ)) (hne : scores ≠ []) :
    ∃ out, normalizeScores scores = some out
      ∧ out.length = scores.length
      ∧ (∀ p ∈ out, 0 ≤ p.2 ∧ p.2 ≤ 1)
      ∧ ((∀ p ∈ scores, ∀ r ∈ scores, p.2 = r.2) → ∀ p ∈ out, p.2 = (1:ℚ)/2) := by
  have hvne : scores.map (fun p => p.2) ≠ [] := by
    intro h
    exact hne (List.map_eq_nil_iff.mp h)
  obtain ⟨mn, hmn⟩ : ∃ mn, (scores.map (fun p => p.2)).min? = some mn := by
    cases h : (scores.map (fun p => p.2)).min? with
    | none => exact absurd (List.min?_eq_none_iff.mp h) hvne
    | some a => exact ⟨a, rfl⟩
  obtain ⟨mx, hmx⟩ : ∃ mx, (scores.map (fun p => p.2)).max? = some mx := by
    cases h : (scores.map (fun p => p.2)).max? with
    | none => exact absurd (List.max?_eq_none_iff.mp h) hvne
    | some a => exact ⟨a, rfl⟩
  have hmn' := (List.min?_eq_some_iff (fun a => le_refl a)
    (fun a b => min_choice a b) (fun a b c => le_min_iff)).mp hmn
  have hmx' := (List.max?_eq_some_iff (fun a => le_refl a)
    (fun a b => max_choice a b) (fun a b c => max_le_iff)).mp hmx
  by_cases heq : mx = mn
  · refine ⟨scores.map (fun p => (p.1, (1:ℚ)/2)), ?_, by simp, ?_, ?_⟩
    · simp only [normalizeScores]
      rw [hmn, hmx]
      simp [heq]
    · intro p hp
      obtain ⟨r, _, rfl⟩ := List.mem_map.mp hp
      norm_num
    · intro _ p hp
      obtain ⟨r, _, rfl⟩ := List.mem_map.mp hp
      rfl
  · have hlt : mn < mx := lt_of_le_of_ne (hmn'.2 mx hmx'.1) (fun h => heq h.symm)
    refine ⟨scores.map (fun p => (p.1, (p.2 - mn)/(mx - mn))), ?_, by simp, ?_, ?_⟩
    · simp only [normalizeScores]
      rw [hmn, hmx]
      simp [heq]
    · intro p hp
      obtain ⟨r, hr, rfl⟩ := List.mem_map.mp hp
      have h1 : mn ≤ r.2 := hmn'.2 _ (List.mem_map_of_mem _ hr)
      have h2 : r.2 ≤ mx := hmx'.2 _ (List.mem_map_of_mem _ hr)
      constructor
      · apply div_nonneg <;> linarith
      · rw [div_le_one (by linarith)]
        linarith
    · intro hall p hp
      obtain ⟨pm, hpm, hpm2⟩ := List.mem_map.mp hmn'.1
      obtain ⟨px, hpx, hpx2⟩ := List.mem_map.mp hmx'.1
      have hmm : mn = mx := by
        rw [← hpm2, ← hpx2]
        exact hall pm hpm px hpx
      exact absurd hmm.symm heq

/-- Claim C7 witness: a two-entry dict with equal scores normalizes to `1/2`
everywhere. -/
theorem claim_C7_witness :
    ∃ out, normalizeScores [(str "a", 3), (str "b", 3)] = some out
      ∧ out.length = ([(str "a", 3), (str "b", 3)] : List (PyStr × ℚ)).length
      ∧ (∀ p ∈ out, 0 ≤ p.2 ∧ p.2 ≤ 1)
      ∧ ((∀ p ∈ ([(str "a", 3), (str "b", 3)] : List (PyStr × ℚ)),
            ∀ r ∈ ([(str "a", 3), (str "b", 3)] : List (PyStr × ℚ)), p.2 = r.2)
          → ∀ p ∈ out, p.2 = (1:ℚ)/2) :=
  claim_C7 [(str "a", 3), (str "b", 3)] (by simp)

/-- Claim C4 (amended): on equal combined scores, `query_hybrid` keeps the
documents in the iteration order of the Python set `all_doc_ids` (the sort
is stable); the tie order is NOT ascending `doc_id` — it follows whatever
enumeration order the set produces. -/
theorem claim_C4 (kb : KB) (q : PyStr) (alpha : ℚ) (order : List PyStr)
    (cd : List (PyStr × ℚ)) (c : ℚ)
    (hcd : combinedScores kb q alpha order = some cd) :
    ((hybridRankedIds kb q alpha order).getD []).filter
        (fun z => decide (dictGet cd z 0 = c))
      = order.filter (fun z => decide (dictGet cd z 0 = c)) := by
  unfold hybridRankedIds
  rw [hcd]
  simp only [Option.map_some', Option.getD_some]
  exact stableSort_filter_key (fun i => dictGet cd i 0) c order

/-- Claim C4 counterexample: with two tied documents and set iteration order
`[beta, alpha]`, the hybrid result lists `beta` before `alpha` although
`alpha < beta` lexically — the claimed ascending-`doc_id` tie-break does not
hold. -/
theorem claim_C4_counterexample :
    ValidOrder kbTie (str "q") [str "beta", str "alpha"]
  ∧ combinedScores kbTie (str "q") (1/2) [str "beta", str "alpha"]
      = some [(str "beta", 1/2), (str "alpha", 1/2)]
  ∧ (queryHybrid kbTie (str "q") 5 (1/2) [str "beta", str "alpha"]).map
      (fun l => l.map (fun p => p.1.doc_id))
      = some [str "beta", str "alpha"]
  ∧ pyLt (str "alpha") (str "beta") = true := by
  refine ⟨?_, ?_, ?_, ?_⟩
  · with_unfolding_all decide
  · with_unfolding_all rfl
  · with_unfolding_all rfl
  · decide

/-- Claim C4 witness: the stability statement evaluated on the tied
two-document base. -/
theorem claim_C4_witness :
    ((hybridRankedIds kbTie (str "q") (1/2) [str "beta", str "alpha"]).getD []).filter
        (fun z => decide (dictGet [(str "beta", (1:ℚ)/2), (str "alpha", 1/2)] z 0 = 1/2))
      = [str "beta", str "alpha"].filter
        (fun z => decide (dictGet [(str "beta", (1:ℚ)/2), (str "alpha", 1/2)] z 0 = 1/2)) :=
  claim_C4 kbTie (str "q") (1/2) [str "beta", str "alpha"]
    [(str "beta", 1/2), (str "alpha", 1/2)] (1/2) (by with_unfolding_all rfl)

/-- Claim C1 (code bug): on a two-document base where `doc-a` is strictly
closer to the query than `doc-b`, `query_semantic` ranks `[doc-a, doc-b]`,
but `query_hybrid` with `alpha = 1.0` ranks `[doc-b, doc-a]` — the exact
reverse — for every possible set iteration order, because the raw FAISS
distance is min-max normalized and used as the semantic score without being
inverted. -/
theorem claim_C1 (order : List PyStr) (hv : ValidOrder kbTwo (str "q") order) :
    (querySemantic kbTwo (str "q") 2).map (fun p => p.1.doc_id)
        = [str "doc-a", str "doc-b"]
      ∧ (queryHybrid kbTwo (str "q") 2 1 order).map
          (fun l => l.map (fun p => p.1.doc_id))
        = some [str "doc-b", str "doc-a"] := by
  obtain ⟨hnd, hsub, hsup⟩ := hv
  have hu : unionIds kbTwo (str "q")
      = [str "doc-a", str "doc-b", str "doc-b", str "doc-a"] := by
    with_unfolding_all rfl
  have hsub' : ∀ x ∈ order, x = str "doc-a" ∨ x = str "doc-b" := by
    intro x hx
    have hm := hsub x hx
    rw [hu] at hm
    simp at hm
    tauto
  have ha : str "doc-a" ∈ order := hsup _ (by rw [hu]; simp)
  have hb : str "doc-b" ∈ order := hsup _ (by rw [hu]; simp)
  have hab : str "doc-a" ≠ str "doc-b" := by decide
  rcases twoElemEnum order hab hnd hsub' ha hb with h | h <;> subst h
  · exact ⟨by with_unfolding_all rfl, by with_unfolding_all rfl⟩
  · exact ⟨by with_unfolding_all rfl, by with_unfolding_all rfl⟩

/-- Claim C1 witness: the reversal evaluated at one concrete set iteration
order. -/
theorem claim_C1_witness :
    (querySemantic kbTwo (str "q") 2).map (fun p => p.1.doc_id)
        = [str "doc-a", str "doc-b"]
      ∧ (queryHybrid kbTwo (str "q") 2 1 [str "doc-a", str "doc-b"]).map
          (fun l => l.map (fun p => p.1.doc_id))
        = some [str "doc-b", str "doc-a"] :=
  claim_C1 [str "doc-a", str "doc-b"] (by with_unfolding_all decide)

/-- Claim C2 counterexample: a corpus with `dup-001` in two source files
parses to TWO documents with that id — both are embedded and indexed (one
BM25 row each), no `DuplicateDocumentId` warning exists anywhere in the
build, and the knowledge-graph node table keeps the LAST-seen occurrence
(type `law`, from the second file), not the first. -/
theorem claim_C2_counterexample :
    (parseCorpus corpusDup).map (fun d => d.doc_id) = [str "dup-001", str "dup-001"]
  ∧ (bm25Corpus (parseCorpus corpusDup)).length = 2
  ∧ ((kgParseCorpus (parseCorpus corpusDup) [[0], [1]]).1.find?
        (fun p => p.1 = str "dup-001")).map (fun p => p.2.ty)
      = some (some (str "law"))
  ∧ (kgParseCorpus (parseCorpus corpusDup) [[0], [1]]).1.length = 1 := by
  refine ⟨?_, ?_, ?_, ?_⟩ <;> with_unfolding_all rfl

/-- Claim C2 (amended): the build performs no duplicate-id detection — every
parsed occurrence gets its own index entry (one BM25 row per document, with
both copies of a duplicated id present in the parsed sequence), and the
knowledge-graph node dict silently keeps the last-seen occurrence. -/
theorem claim_C2 :
    (∀ docs : List CorpusDocument, (bm25Corpus docs).length = docs.length)
  ∧ (parseCorpus corpusDup).map (fun d => d.doc_id) = [str "dup-001", str "dup-001"]
  ∧ ((kgParseCorpus (parseCorpus corpusDup) [[0], [1]]).1.find?
        (fun p => p.1 = str "dup-001")).map (fun p => p.2.ty)
      = some (some (str "law")) := by
  refine ⟨?_, ?_, ?_⟩
  · intro docs
    simp [bm25Corpus]
  · with_unfolding_all rfl
  · with_unfolding_all rfl

/-- Claim C3 (code bug): the raw corpus section carries an explicit
`**Related:**` annotation line listing two ids, but the parser strips that
line from `content`, and `_extract_relationships` re-scans only the parsed
`content` — so the built edge list is empty: no `relates_to` edge is ever
produced from an annotation line. -/
theorem claim_C3 :
    pyIn (str "**Related:**") (corpusRel.headD ([], [])).2 = true
  ∧ (parseCorpus corpusRel).map (fun d => pyIn (str "**Related:**") d.content) = [false]
  ∧ (kgParseCorpus (parseCorpus corpusRel) [[0]]).2 = [] := by
  refine ⟨?_, ?_, ?_⟩ <;> with_unfolding_all rfl

/-- Claim C6 counterexample: a section with `**ID:** id-a` followed by
`**ID:** id-b` parses with `doc_id = id-b` — the LAST occurrence, not the
claimed first. -/
theorem claim_C6_counterexample :
    (parseFile (str "f.md") corpusTwoIds).map (fun d => d.doc_id) = [str "id-b"]
  ∧ str "id-b" ≠ str "id-a" :=
  ⟨by with_unfolding_all rfl, by decide⟩

/-- Claim C6 (amended): for each of the `ID`, `Tags` and `Type` markers, a
later duplicate marker line OVERWRITES the field set by an earlier one (last
occurrence wins), from any parser state, still without error. -/
theorem claim_C6 (st : ParseState) :
    (processLine (processLine st (str "**ID:** id-a")) (str "**ID:** id-b")).docId
        = some (str "id-b")
  ∧ (processLine (processLine st (str "**Tags:** t1")) (str "**Tags:** t2")).tags
        = [str "t2"]
  ∧ (processLine (processLine st (str "**Type:** law")) (str "**Type:** definition")).docType
        = some (str "definition") := by
  refine ⟨?_, ?_, ?_⟩ <;> rfl

/-- Claim C8 counterexample: with 5 vectors the IVF cluster count is 0, not
at least 1. -/
theorem claim_C8_counterexample :
    nlistIVF 5 = 0 ∧ ¬ (1 ≤ nlistIVF 5) := by decide

/-- Claim C8 (amended): the IVF cluster count is
`min(100, vector_count // 10)` with floor division and NO minimum-1 clamp:
it is 0 exactly when there are fewer than 10 vectors, and only from 10
vectors upward does it lie in `[1, 100]`. -/
theorem claim_C8 (n : Nat) :
    (nlistIVF n = 0 ↔ n < 10) ∧ (10 ≤ n → 1 ≤ nlistIVF n ∧ nlistIVF n ≤ 100) := by
  unfold nlistIVF
  constructor
  · omega
  · intro h
    omega

/-- Claim C8 witness: 5 vectors give 0 clusters; 50 vectors give a count in
`[1, 100]`. -/
theorem claim_C8_witness :
    (nlistIVF 5 = 0 ↔ 5 < 10) ∧ (1 ≤ nlistIVF 50 ∧ nlistIVF 50 ≤ 100) :=
  ⟨(claim_C8 5).1, (claim_C8 50).2 (by norm_num)⟩

/-- Claim C9 counterexample: a document whose content references the
unresolvable id `fix-absent-001` produces one dangling edge; the edge is
kept in the builder's in-memory list but the built graph tensor has an empty
edge list and every count in the saved statistics artifact is zero — the
dangling edge is absent from all persisted output. -/
theorem claim_C9_counterexample :
    (kgParseCorpus metadataDangling [[0]]).2
        = [{ src := str "violation-bad-001", dst := str "fix-absent-001", ty := str "fixes" }]
  ∧ edgeResolvable (kgParseCorpus metadataDangling [[0]]).1
        { src := str "violation-bad-001", dst := str "fix-absent-001", ty := str "fixes" }
      = false
  ∧ (buildGraph (kgParseCorpus metadataDangling [[0]]).1
        (kgParseCorpus metadataDangling [[0]]).2).edgeList = []
  ∧ savedGraphStats (buildGraph (kgParseCorpus metadataDangling [[0]]).1
        (kgParseCorpus metadataDangling [[0]]).2)
      = { numNodes := 1, numEdges := 0,
          edgesByType := EDGE_TYPES.map (fun p => (p.1, 0)) } := by
  refine ⟨?_, ?_, ?_, ?_⟩ <;> with_unfolding_all rfl

/-- Claim C9 (amended): `build_graph` keeps exactly the edges whose two
endpoints resolve; dangling edges are excluded from the graph tensor AND
from the saved statistics (which count only the filtered edges) — they
survive only in the builder's in-memory edge list, unpersisted. -/
theorem claim_C9 (nodes : List (PyStr × KGNode)) (edges : List Edge) :
    (buildGraph nodes edges).edgeList.length = (edges.filter (edgeResolvable nodes)).length
  ∧ (buildGraph nodes edges).edgeTypes.length = (edges.filter (edgeResolvable nodes)).length
  ∧ (buildGraph nodes edges).edgeList.length
      + (edges.filter (fun e => !(edgeResolvable nodes e))).length = edges.length
  ∧ (savedGraphStats (buildGraph nodes edges)).numEdges
      = (edges.filter (edgeResolvable nodes)).length := by
  refine ⟨?_, ?_, ?_, ?_⟩
  · simp [buildGraph, List.length_map]
  · simp [buildGraph, List.length_map]
  · simp only [buildGraph, List.length_map]
    exact length_filter_add_length_filter_not (edgeResolvable nodes) edges
  · simp [savedGraphStats, buildGraph, List.length_map]

/-- Claim C10: role selection in `_extract_relationships` tests the
substrings `violation-`, `pattern-`, `test-` anywhere in the doc id (not as
a prefix), in that fixed `if`/`elif` priority, so at most one role branch
fires; an id containing none of them yields only `relates_to` edges; and the
embedded-id regexes match anywhere in the content, including inside longer
hyphenated tokens. -/
theorem claim_C10 (nid content : PyStr) :
    (pyIn (str "violation-") nid = true →
      (extractRelationships nid content).all
        (fun e => decide (e.ty = str "relates_to") || decide (e.ty = str "fixes")
          || decide (e.ty = str "violates")) = true)
  ∧ (pyIn (str "violation-") nid = false → pyIn (str "pattern-") nid = true →
      (extractRelationships nid content).all
        (fun e => decide (e.ty = str "relates_to") || decide (e.ty = str "defines")
          || decide (e.ty = str "implements")) = true)
  ∧ (pyIn (str "violation-") nid = false → pyIn (str "pattern-") nid = false →
      pyIn (str "test-") nid = true →
      (extractRelationships nid content).all
        (fun e => decide (e.ty = str "relates_to")
          || decide (e.ty = str "verifies")) = true)
  ∧ (pyIn (str "violation-") nid = false → pyIn (str "pattern-") nid = false →
      pyIn (str "test-") nid = false →
      (extractRelationships nid content).all
        (fun e => decide (e.ty = str "relates_to")) = true)
  ∧ (pyIn (str "violation-") (str "x-violation-001") = true
      ∧ extractRelationships (str "x-violation-001") (str "apply fix-a now")
          = [{ src := str "x-violation-001", dst := str "fix-a", ty := str "fixes" }]
      ∧ findall (str "law-") (str "outlaw-zone") = [str "law-zone"]
      ∧ findall (str "fix-") (str "prefix-foo") = [str "fix-foo"]) := by
  refine ⟨?_, ?_, ?_, ?_, by decide⟩
  · intro hvio
    rw [List.all_eq_true]
    intro e he
    simp only [extractRelationships, hvio] at he
    rcases List.mem_append.mp he with h1 | h2
    · cases hsr : searchRelated content with
      | none =>
        rw [hsr] at h1
        simp at h1
      | some g =>
        rw [hsr] at h1
        obtain ⟨r, _, rfl⟩ := List.mem_map.mp h1
        rfl
    · rcases List.mem_append.mp h2 with h3 | h4
      · obtain ⟨r, _, rfl⟩ := List.mem_map.mp h3
        rfl
      · obtain ⟨r, _, rfl⟩ := List.mem_map.mp h4
        rfl
  · intro hvio hpat
    rw [List.all_eq_true]
    intro e he
    simp only [extractRelationships, hvio, hpat] at he
    rcases List.mem_append.mp he with h1 | h2
    · cases hsr : searchRelated content with
      | none =>
        rw [hsr] at h1
        simp at h1
      | some g =>
        rw [hsr] at h1
        obtain ⟨r, _, rfl⟩ := List.mem_map.mp h1
        rfl
    · rcases List.mem_append.mp h2 with h3 | h4
      · obtain ⟨r, _, rfl⟩ := List.mem_map.mp h3
        rfl
      · obtain ⟨r, _, rfl⟩ := List.mem_map.mp h4
        rfl
  · intro hvio hpat htst
    rw [List.all_eq_true]
    intro e he
    simp only [extractRelationships, hvio, hpat, htst] at he
    rcases List.mem_append.mp he with h1 | h2
    · cases hsr : searchRelated content with
      | none =>
        rw [hsr] at h1
        simp at h1
      | some g =>
        rw [hsr] at h1
        obtain ⟨r, _, rfl⟩ := List.mem_map.mp h1
        rfl
    · obtain ⟨r, _, rfl⟩ := List.mem_map.mp h2
      rfl
  · intro hvio hpat htst
    rw [List.all_eq_true]
    intro e he
    simp only [extractRelationships, hvio, hpat, htst] at he
    rcases List.mem_append.mp he with h1 | h2
    · cases hsr : searchRelated content with
      | none =>
        rw [hsr] at h1
        simp at h1
      | some g =>
        rw [hsr] at h1
        obtain ⟨r, _, rfl⟩ := List.mem_map.mp h1
        rfl
    · simp at h2

/-- Claim C10 witness: an id carrying no role substring yields only
`relates_to` edges. -/
theorem claim_C10_witness :
    (extractRelationships (str "note-001") (str "see fix-1 and law-2")).all
      (fun e => decide (e.ty = str "relates_to")) = true :=
  (claim_C10 (str "note-001") (str "see fix-1 and law-2")).2.2.2.1
    (by decide) (by decide) (by decide)
